import Mathlib

/-!
# Verification of the `site_scraper` crawl engine

A shallow embedding of `src/site_scraper.py` (class `WebScraper`): the URL
classifier/normalizer, the local path mapper, the page processor, and the
sequential semantics of the worker loop (`worker` + `download_page`) together
with the orchestrator's completion poll in `start`.

Library functions from Python's standard library that the scraper calls
(`urllib.parse.urlparse`, `urllib.parse.urljoin`, `os.path.join`,
`os.path.dirname`, `os.path.basename`, `os.path.relpath`) are modelled after
the CPython implementations, restricted to the hierarchical (http/https)
case and POSIX path separators.
-/

namespace Scrap

/-! ## Kernel-reducible string primitives

The built-in `String` functions (`splitOn`, `startsWith`, `toLower`, ...)
are implemented with byte-position loops that the kernel cannot evaluate,
so the embedding uses these character-list equivalents throughout. -/

/-- Split a character list at every occurrence of `c`
(the semantics of Python `str.split(c)` for a one-character separator). -/
def chSplit (c : Char) : List Char → List (List Char)
  | [] => [[]]
  | x :: xs =>
      if x == c then [] :: chSplit c xs
      else
        match chSplit c xs with
        | [] => [[x]]
        | y :: ys => (x :: y) :: ys

/-- `str.split(c)` as a list of strings. -/
def strSplit (s : String) (c : Char) : List String :=
  (chSplit c s.data).map String.mk

/-- `str.startswith(p)`. -/
def strStartsWith (s p : String) : Bool :=
  p.data.isPrefixOf s.data

/-- `str.endswith(p)`. -/
def strEndsWith (s p : String) : Bool :=
  p.data.isSuffixOf s.data

/-- `c in s` for a single character. -/
def strHasChar (s : String) (c : Char) : Bool :=
  s.data.any (fun x => x == c)

/-- `str.lower()` (ASCII, which covers every string the scraper builds). -/
def strToLower (s : String) : String :=
  String.mk (s.data.map Char.toLower)

/-- `str.replace(c, r)` for one-character pattern and replacement. -/
def strReplaceChar (s : String) (c r : Char) : String :=
  String.mk (s.data.map fun x => if x == c then r else x)

/-- The longest prefix of `s` whose characters satisfy `p`. -/
def strTakeWhile (s : String) (p : Char → Bool) : String :=
  String.mk (s.data.takeWhile p)

/-- What `strTakeWhile` leaves behind. -/
def strDropWhile (s : String) (p : Char → Bool) : String :=
  String.mk (s.data.dropWhile p)

/-! ## Model of `urllib.parse` -/

/-- Result of `urllib.parse.urlparse` / `urlsplit` (the scraper never uses
the `params` component, so it is folded into `path` as in `urlsplit`). -/
structure ParsedURL where
  scheme : String
  netloc : String
  path : String
  query : String
  fragment : String
  deriving Repr, DecidableEq

/-- Characters allowed in a URL scheme after the leading letter
(CPython `scheme_chars`). -/
def isSchemeChar (c : Char) : Bool :=
  c.isAlpha || c.isDigit || c == '+' || c == '-' || c == '.'

/-- Split a string at the first occurrence of a separator character: the
part before, and the part after (empty when the separator is absent). -/
def splitFirst (s : String) (sep : Char) : String × String :=
  match strSplit s sep with
  | [] => ("", "")
  | x :: rest => (x, String.intercalate (String.mk [sep]) rest)

/-- Model of CPython `urlsplit(url, scheme=default)`: strip the fragment,
detect the scheme (a leading letter followed by scheme characters, before a
colon), the netloc (after `//`), the query. -/
def urlsplitD (url : String) (defaultScheme : String) : ParsedURL :=
  let (rest, fragment) := splitFirst url '#'
  let (schemePart, afterColon) := splitFirst rest ':'
  let hasScheme :=
    strHasChar rest ':' && !schemePart.isEmpty &&
      (schemePart.data.headD ' ').isAlpha && schemePart.data.all isSchemeChar
  let scheme := if hasScheme then strToLower schemePart else defaultScheme
  let rest := if hasScheme then afterColon else rest
  let (netloc, rest) :=
    if strStartsWith rest "//" then
      let r := rest.drop 2
      (strTakeWhile r (fun c => c != '/' && c != '?' && c != '#'),
       strDropWhile r (fun c => c != '/' && c != '?' && c != '#'))
    else ("", rest)
  let (path, query) := splitFirst rest '?'
  { scheme := scheme, netloc := netloc, path := path,
    query := query, fragment := fragment }

/-- Model of `urllib.parse.urlparse` with no default scheme. -/
def urlparse (url : String) : ParsedURL := urlsplitD url ""

/-- Model of CPython `urlunsplit`. -/
def urlunsplit (p : ParsedURL) : String :=
  let url := p.path
  let url :=
    if !p.netloc.isEmpty || strStartsWith url "//" then
      "//" ++ p.netloc ++
        (if !url.isEmpty && !strStartsWith url "/" then "/" ++ url else url)
    else url
  let url := if !p.scheme.isEmpty then p.scheme ++ ":" ++ url else url
  let url := if !p.query.isEmpty then url ++ "?" ++ p.query else url
  if !p.fragment.isEmpty then url ++ "#" ++ p.fragment else url

/-- The dot-segment removal loop of CPython `urljoin`: `..` pops, `.` is
skipped, anything else is appended. -/
def resolveSegs : List String → List String → List String
  | acc, [] => acc
  | acc, seg :: rest =>
      if seg == ".." then resolveSegs acc.dropLast rest
      else if seg == "." then resolveSegs acc rest
      else resolveSegs (acc ++ [seg]) rest

/-- Keep the first and last element, drop empty strings in between
(CPython `segments[1:-1] = filter(None, segments[1:-1])`). -/
def filterMiddle (l : List String) : List String :=
  match l with
  | [] => []
  | [x] => [x]
  | x :: rest =>
      x :: (rest.dropLast.filter (fun s => !s.isEmpty)) ++ [rest.getLastD ""]

/-- Join the resolved segments, appending a trailing empty segment when the
reference ended in `.` or `..`, defaulting to `/` (CPython `urljoin` tail). -/
def joinSegs (segments : List String) : String :=
  let resolved := resolveSegs [] segments
  let resolved :=
    if segments.getLastD "" == "." || segments.getLastD "" == ".." then
      resolved ++ [""]
    else resolved
  let joined := String.intercalate "/" resolved
  if joined.isEmpty then "/" else joined

/-- Model of CPython `urllib.parse.urljoin(base, url)`, restricted to
hierarchical schemes (http/https are in both `uses_relative` and
`uses_netloc`). -/
def urljoin (base url : String) : String :=
  if base.isEmpty then url
  else if url.isEmpty then base
  else
    let b := urlparse base
    let r := urlsplitD url b.scheme
    if r.scheme != b.scheme then url
    else if !r.netloc.isEmpty then urlunsplit r
    else
      let r := { r with netloc := b.netloc }
      if r.path.isEmpty then
        urlunsplit { r with path := b.path,
                            query := if r.query.isEmpty then b.query else r.query }
      else if strStartsWith r.path "/" then
        urlunsplit { r with path := joinSegs (strSplit r.path '/') }
      else
        let baseParts := strSplit b.path '/'
        let baseParts :=
          if baseParts.getLastD "" != "" then baseParts.dropLast else baseParts
        let segments := filterMiddle (baseParts ++ strSplit r.path '/')
        urlunsplit { r with path := joinSegs segments }

/-! ## Model of `os.path` (POSIX) -/

/-- Model of `os.path.basename`: the part after the last `/`. -/
def pathBasename (p : String) : String :=
  (strSplit p '/').getLastD ""

/-- Model of `os.path.dirname`: the part before the last `/`
(empty when there is no `/`). -/
def pathDirname (p : String) : String :=
  let parts := strSplit p '/'
  if parts.length ≤ 1 then "" else String.intercalate "/" parts.dropLast

/-- Model of `os.path.join(a, b)` for two POSIX components. -/
def pathJoin (a b : String) : String :=
  if strStartsWith b "/" then b
  else if a.isEmpty || strEndsWith a "/" then a ++ b
  else a ++ "/" ++ b

/-- Model of `os.path.relpath(path, start)` under one fixed working
directory, so both arguments are resolved against the same prefix and the
prefix cancels: compare the nonempty components, count the common prefix,
go up with `..` and descend with the remainder. -/
def relpath (path start : String) : String :=
  let pl := (strSplit path '/').filter (fun s => !s.isEmpty)
  let sl := (strSplit start '/').filter (fun s => !s.isEmpty)
  let i := (List.zip sl pl).takeWhile (fun q => q.1 == q.2) |>.length
  let rel := List.replicate (sl.length - i) ".." ++ pl.drop i
  if rel.isEmpty then "." else String.intercalate "/" rel

/-! ## Scraper configuration (`WebScraper.__init__` parameters) -/

/-- The configuration fields of `WebScraper` that the crawl logic reads
(`delay`, `verbose` and the HTTP session only affect timing and logging). -/
structure Config where
  baseUrl : String
  outputDir : String
  maxDepth : Nat
  followExternal : Bool
  downloadImages : Bool
  downloadCss : Bool
  downloadJs : Bool
  fileTypes : List String
  deriving Repr

/-- `self.base_domain = urllib.parse.urlparse(base_url).netloc`
(line 25 of `site_scraper.py`). -/
def baseDomain (cfg : Config) : String := (urlparse cfg.baseUrl).netloc

/-! ## `WebScraper._normalize_url` and `WebScraper._is_valid_url` -/

/-- `url.split('#')[0]` (line 81). -/
def stripFragment (url : String) : String :=
  (strSplit url '#').headD ""

/-- `WebScraper._normalize_url(url, parent_url)` (lines 75-87): `None` on an
empty href, otherwise strip the fragment; a URL already starting with
`http://` or `https://` is returned as-is, anything else goes through
`urljoin` with the parent URL. -/
def normalize_url (url parent_url : String) : Option String :=
  if url.isEmpty then none
  else
    let url := stripFragment url
    if !(strStartsWith url "http://" || strStartsWith url "https://") then
      some (urljoin parent_url url)
    else
      some url

/-- The hard-blocked extensions (`unwanted_exts`, line 65). -/
def unwantedExts : List String := [".exe", ".bin"]

/-- `WebScraper._is_valid_url(url)` (lines 55-73): reject non-http(s),
reject a foreign host unless `follow_external`, reject `.exe`/`.bin`
unconditionally; the `file_types` test returns `True`, as does the
fall-through, so the remaining URLs are all accepted. -/
def is_valid_url (cfg : Config) (url : String) : Bool :=
  if url.isEmpty || !(strStartsWith url "http://" || strStartsWith url "https://") then
    false
  else if !cfg.followExternal && (urlparse url).netloc != baseDomain cfg then
    false
  else if unwantedExts.any (fun ext => strEndsWith url ext) then
    false
  else if !cfg.fileTypes.isEmpty && cfg.fileTypes.any (fun ext => strEndsWith url ext) then
    true
  else
    true

/-! ## `WebScraper._get_local_path` and `WebScraper._should_download_file` -/

/-- `WebScraper._get_local_path(url)` (lines 89-109), minus the
`os.makedirs` side effect: host ++ path, `:` replaced by `_`, an
`index.html` appended for directory-like paths, prefixed with the output
directory. -/
def get_local_path (cfg : Config) (url : String) : String :=
  let p := urlparse url
  let path := p.netloc ++ p.path
  let path := strReplaceChar path ':' '_'
  let path :=
    if strEndsWith path "/" then path ++ "index.html"
    else if !(strHasChar (pathBasename path) '.') then path ++ "/index.html"
    else path
  pathJoin cfg.outputDir path

/-- `WebScraper._should_download_file(url)` (lines 125-130): false when no
extra file types are configured, otherwise a case-insensitive
extension-suffix test. -/
def should_download_file (cfg : Config) (url : String) : Bool :=
  if cfg.fileTypes.isEmpty then false
  else cfg.fileTypes.any (fun ext => strEndsWith (strToLower url) (strToLower ext))

/-! ## `WebScraper._process_html` -/

/-- The HTML elements `_process_html` touches: anchors (`<a href>`), images
(`<img src>`), stylesheet links (`<link rel=stylesheet href>`) and scripts
(`<script src>`). -/
inductive Node where
  | anchor (href : String)
  | img (src : String)
  | css (href : String)
  | script (src : String)
  deriving Repr, DecidableEq

/-- The `href` of an anchor node, `none` for the other node kinds. -/
def anchorHref : Node → Option String
  | .anchor href => some href
  | _ => none

/-- Result of `_process_html`: the (possibly attribute-rewritten) document,
the discovered links it returns, and the `(url, local_path)` pairs passed to
`_download_resource`, in order. -/
structure ProcessResult where
  doc : List Node
  links : List String
  downloads : List (String × String)
  deriving Repr, DecidableEq

/-- One resource element of `_process_html` (lines 145-167): normalize the
reference; when present, derive the local path, attempt the download, and on
success (`resOk`) rewrite the attribute to a path relative to the page's own
directory. Anchors are left untouched by this phase. -/
def rewriteNode (cfg : Config) (resOk : String → Bool) (pageUrl : String) :
    Node → Node × List (String × String)
  | .anchor href => (.anchor href, [])
  | .img src =>
      if cfg.downloadImages then
        match normalize_url src pageUrl with
        | none => (.img src, [])
        | some u =>
            let lp := get_local_path cfg u
            (if resOk u then
               .img (relpath lp (pathDirname (get_local_path cfg pageUrl)))
             else .img src, [(u, lp)])
      else (.img src, [])
  | .css href =>
      if cfg.downloadCss then
        match normalize_url href pageUrl with
        | none => (.css href, [])
        | some u =>
            let lp := get_local_path cfg u
            (if resOk u then
               .css (relpath lp (pathDirname (get_local_path cfg pageUrl)))
             else .css href, [(u, lp)])
      else (.css href, [])
  | .script src =>
      if cfg.downloadJs then
        match normalize_url src pageUrl with
        | none => (.script src, [])
        | some u =>
            let lp := get_local_path cfg u
            (if resOk u then
               .script (relpath lp (pathDirname (get_local_path cfg pageUrl)))
             else .script src, [(u, lp)])
      else (.script src, [])

/-- The link-extraction loop of `_process_html` (lines 137-142): normalize
every anchor href and keep the ones passing `_is_valid_url`. -/
def extractLinks (cfg : Config) (doc : List Node) (pageUrl : String) : List String :=
  doc.filterMap (fun n =>
    match anchorHref n with
    | none => none
    | some href =>
        match normalize_url href pageUrl with
        | none => none
        | some u => if is_valid_url cfg u then some u else none)

/-- The extra-file-type loop of `_process_html` (lines 170-174): for every
anchor whose normalized target passes `_should_download_file`, download it to
its mapped local path; the anchor itself is not rewritten. -/
def extraFileDownloads (cfg : Config) (doc : List Node) (pageUrl : String) :
    List (String × String) :=
  doc.filterMap (fun n =>
    match anchorHref n with
    | none => none
    | some href =>
        match normalize_url href pageUrl with
        | none => none
        | some u =>
            if should_download_file cfg u then some (u, get_local_path cfg u)
            else none)

/-- `WebScraper._process_html(html_content, url, depth)` (lines 132-181),
with the network abstracted by `resOk` (did `_download_resource` succeed)
and the final file write dropped: extract links, rewrite and download
resources, attempt the extra-file-type downloads. -/
def process_html (cfg : Config) (resOk : String → Bool) (doc : List Node)
    (pageUrl : String) : ProcessResult :=
  let rewritten := doc.map (rewriteNode cfg resOk pageUrl)
  { doc := rewritten.map Prod.fst
    links := extractLinks cfg doc pageUrl
    downloads := (rewritten.map Prod.snd).flatten ++ extraFileDownloads cfg doc pageUrl }

/-! ## Sequential semantics of `worker` + `download_page` -/

/-- What the server returns for a URL: an HTML page (status 200,
`text/html`, with the parsed document), a non-HTML 200 response, a non-200
status, or a network error (exception in `download_page`). -/
inductive FetchResult where
  | html (doc : List Node)
  | nonHtml
  | httpError
  | netError
  deriving Repr

/-- The network, as a pure oracle from URL to response. -/
def Web := String → FetchResult

/-- The session state touched by the crawl loop: `visited_urls`, the task
queue, and the three counters (lines 37-49), plus two event logs used to
state history properties: every `(url, depth)` ever put on the queue
(`taskLog`) and every URL ever dequeued-and-marked-visited (`processedLog`).
`running` is the cooperative flag read by `worker` and `start`. -/
structure CrawlState where
  visited : Finset String
  queue : List (String × Nat)
  total : Nat
  downloaded : Nat
  failed : Nat
  running : Bool
  taskLog : List (String × Nat)
  processedLog : List String
  deriving DecidableEq

/-- `WebScraper.__init__` (lines 37-49): empty visited set, the seed
enqueued at depth 0, zeroed counters, not yet running. -/
def initScraper (cfg : Config) : CrawlState :=
  { visited := ∅
    queue := [(cfg.baseUrl, 0)]
    total := 0
    downloaded := 0
    failed := 0
    running := false
    taskLog := [(cfg.baseUrl, 0)]
    processedLog := [] }

/-- The state reset at the top of `WebScraper.start` (lines 271-273):
`running = True` and `visited_urls = set()`; nothing else is touched. -/
def startPrelude (s : CrawlState) : CrawlState :=
  { s with running := true, visited := ∅ }

/-- A fresh session: a newly constructed scraper on which `start` has just
reset its state (both UIs build a new `WebScraper` per crawl). -/
def sessionStart (cfg : Config) : CrawlState :=
  startPrelude (initScraper cfg)

/-- One iteration of `worker` (lines 241-264) on a nonempty queue, inlining
`download_page` (lines 183-239): skip an already-visited URL; otherwise mark
it visited and bump `total`, fetch it, and for an HTML 200 response enqueue
the discovered links not yet visited when `depth < max_depth`
(lines 197-202), bumping `downloaded` or `failed` once per processed task.
An empty queue leaves the state unchanged (`queue.Empty → continue`). -/
def workerStep (cfg : Config) (web : Web) (resOk : String → Bool)
    (s : CrawlState) : CrawlState :=
  match s.queue with
  | [] => s
  | (url, depth) :: rest =>
      if url ∈ s.visited then { s with queue := rest }
      else
        let s1 := { s with
          queue := rest
          visited := insert url s.visited
          total := s.total + 1
          processedLog := s.processedLog ++ [url] }
        match web url with
        | .html doc =>
            let links := (process_html cfg resOk doc url).links
            let newTasks :=
              if depth < cfg.maxDepth then
                (links.filter (fun l => l ∉ s1.visited)).map (fun l => (l, depth + 1))
              else []
            { s1 with
              queue := s1.queue ++ newTasks
              taskLog := s1.taskLog ++ newTasks
              downloaded := s1.downloaded + 1 }
        | .nonHtml => { s1 with downloaded := s1.downloaded + 1 }
        | .httpError => { s1 with failed := s1.failed + 1 }
        | .netError => { s1 with failed := s1.failed + 1 }

/-- `n` worker iterations from a state. -/
def runSteps (cfg : Config) (web : Web) (resOk : String → Bool)
    (s : CrawlState) : Nat → CrawlState
  | 0 => s
  | n + 1 => workerStep cfg web resOk (runSteps cfg web resOk s n)

/-! ## The completion poll of `WebScraper.start` -/

/-- A worker thread's loop (line 243) is `while self.running`, so the
thread stays alive exactly as long as `running` holds. -/
def workerThreadAlive (running : Bool) : Bool := running

/-- `all(not t.is_alive() for t in workers)` over `num_threads` workers. -/
def threadsNotAlive (workerCount : Nat) (running : Bool) : Bool :=
  (List.replicate workerCount (workerThreadAlive running)).all (fun t => !t)

/-- The orchestrator's break condition (line 300):
`self.queue.empty() and all(not t.is_alive() for t in workers)`. -/
def completionCheck (s : CrawlState) (workerCount : Nat) : Bool :=
  s.queue.isEmpty && threadsNotAlive workerCount s.running

/-! ## Concrete fixtures -/

/-- A small same-host configuration with the source defaults
(`max_depth=5`, `follow_external=False`, no extra file types). -/
def cfgA : Config :=
  { baseUrl := "http://a.test/"
    outputDir := "out"
    maxDepth := 5
    followExternal := false
    downloadImages := true
    downloadCss := true
    downloadJs := true
    fileTypes := [] }

/-- A three-page site where two distinct pages both link to the same third
URL. -/
def webA : Web := fun u =>
  if u = "http://a.test/" then .html [.anchor "/p1", .anchor "/p2"]
  else if u = "http://a.test/p1" then .html [.anchor "/shared"]
  else if u = "http://a.test/p2" then .html [.anchor "/shared"]
  else .nonHtml

/-- A site whose seed page contains no links at all. -/
def webB : Web := fun _ => .html []

/-- All resource downloads succeed. -/
def allOk : String → Bool := fun _ => true

/-- `cfgA` with `.pdf` as an extra file type. -/
def cfgPdf : Config := { cfgA with fileTypes := [".pdf"] }

/-- `cfgA` with `.exe` configured as an extra file type. -/
def cfgExe : Config := { cfgA with fileTypes := [".exe"] }

/-- A scraper state left over after some activity: nonzero counters, a
nonempty visited set, an empty queue, not running. -/
def sBad : CrawlState :=
  { visited := {"http://a.test/p1"}
    queue := []
    total := 7
    downloaded := 4
    failed := 3
    running := false
    taskLog := [("http://a.test/", 0)]
    processedLog := ["http://a.test/"] }

/-! # Theorems

## Helper lemmas -/

/-- A nonempty string is not `isEmpty`. -/
theorem isEmpty_false_of_ne (s : String) (h : s ≠ "") : s.isEmpty = false := by
  cases hb : s.isEmpty
  · rfl
  · exact absurd ((String.isEmpty_iff s).mp hb) h

/-- A string starting with `#` loses everything at `split('#')[0]`. -/
theorem stripFragment_of_hash (href : String) (h : strStartsWith href "#" = true) :
    stripFragment href = "" := by
  obtain ⟨data⟩ := href
  cases data with
  | nil => simp [strStartsWith, List.isPrefixOf] at h
  | cons c cs =>
      simp only [strStartsWith, String.data, List.isPrefixOf, Bool.and_eq_true,
        beq_iff_eq] at h
      cases h.1
      simp [stripFragment, strSplit, chSplit]

/-! ## C6 — hard-blocked extensions and the `file_types` allowlist -/

/-- **C6**: `_is_valid_url` unconditionally rejects every URL ending in
`.exe` or `.bin`, regardless of the configuration, and the `file_types`
allowlist is irrelevant to its verdict: the function computes the same
answer with the allowlist emptied, because once a URL survives the
scheme/host/blocked-extension checks it is accepted by default. -/
theorem c6_hard_block_precedence (cfg : Config) (url : String) :
    ((strEndsWith url ".exe" = true ∨ strEndsWith url ".bin" = true) →
      is_valid_url cfg url = false)
    ∧ is_valid_url cfg url = is_valid_url { cfg with fileTypes := [] } url := by
  constructor
  · intro h
    have hb : (unwantedExts.any (fun ext => strEndsWith url ext)) = true := by
      rcases h with h | h <;> simp [unwantedExts, h]
    simp [is_valid_url, hb]
  · simp only [is_valid_url, ite_self]
    rfl

/-- Witness for C6: `http://a.test/setup.exe` is rejected even when `.exe`
itself is listed in the extra file types. -/
theorem c6_hard_block_precedence_witness :
    (strEndsWith "http://a.test/setup.exe" ".exe" = true ∨
      strEndsWith "http://a.test/setup.exe" ".bin" = true)
    ∧ is_valid_url cfgExe "http://a.test/setup.exe" = false :=
  ⟨Or.inl (by decide),
    (c6_hard_block_precedence cfgExe "http://a.test/setup.exe").1 (Or.inl (by decide))⟩

/-! ## C7 — `_normalize_url` -/

/-- **C7 counterexample**: an href consisting only of a fragment does not
yield `none`: `_normalize_url` strips it to the empty string and `urljoin`
then returns the parent URL itself. -/
theorem c7_counterexample :
    normalize_url "#top" "http://a.test/page" = some "http://a.test/page"
    ∧ normalize_url "#top" "http://a.test/page" ≠ none := by
  constructor
  · decide
  · decide

/-- **C7 amended**: `_normalize_url` strips any fragment; a stripped href
that is already absolute (http/https) is returned as-is; anything else is
resolved against the parent URL with `urljoin`; the result is `none` exactly
when the raw href is empty — in particular a fragment-only href resolves to
the parent URL itself, never to `none`. -/
theorem c7_normalize_characterization (href parent : String) :
    (href = "" → normalize_url href parent = none)
    ∧ (href ≠ "" → normalize_url href parent ≠ none)
    ∧ (href ≠ "" →
        (strStartsWith (stripFragment href) "http://"
          || strStartsWith (stripFragment href) "https://") = true →
        normalize_url href parent = some (stripFragment href))
    ∧ (href ≠ "" →
        (strStartsWith (stripFragment href) "http://"
          || strStartsWith (stripFragment href) "https://") = false →
        normalize_url href parent = some (urljoin parent (stripFragment href)))
    ∧ (parent ≠ "" → strStartsWith href "#" = true →
        normalize_url href parent = some parent) := by
  refine ⟨?_, ?_, ?_, ?_, ?_⟩
  · intro h; subst h; rfl
  · intro h
    simp only [normalize_url, isEmpty_false_of_ne href h, Bool.false_eq_true,
      if_false]
    split <;> simp
  · intro h habs
    simp [normalize_url, isEmpty_false_of_ne href h, habs]
  · intro h habs
    simp [normalize_url, isEmpty_false_of_ne href h, habs]
  · intro hp hh
    have hne : href ≠ "" := by
      intro h
      subst h
      simp [strStartsWith, List.isPrefixOf] at hh
    have hs := stripFragment_of_hash href hh
    have habs : (strStartsWith "" "http://" || strStartsWith "" "https://") = false := by
      decide
    have hj : urljoin parent "" = parent := by
      have h0 : "".isEmpty = true := rfl
      simp [urljoin, isEmpty_false_of_ne parent hp, h0]
    simp [normalize_url, isEmpty_false_of_ne href hne, hs, habs, hj]

/-- Witness for C7 amended: at `href = "/p1#sec"`, `parent =
"http://a.test/"`, the href is nonempty, relative after fragment-stripping,
and resolves through `urljoin`. -/
theorem c7_normalize_characterization_witness :
    normalize_url "/p1#sec" "http://a.test/" =
      some (urljoin "http://a.test/" (stripFragment "/p1#sec")) :=
  (c7_normalize_characterization "/p1#sec" "http://a.test/").2.2.2.1
    (by decide) (by decide)

/-! ## C10 — the local path mapper ignores query and fragment -/

/-- **C10**: `_get_local_path` reads only the `netloc` and `path` components
of the URL, so two URLs that agree on host and path — in particular two URLs
differing only in query string or fragment — map to the identical local
filesystem path. -/
theorem c10_local_path_ignores_query (cfg : Config) (u v : String)
    (hn : (urlparse u).netloc = (urlparse v).netloc)
    (hp : (urlparse u).path = (urlparse v).path) :
    get_local_path cfg u = get_local_path cfg v := by
  simp only [get_local_path, hn, hp]

/-- Witness for C10: two URLs differing only in query (and fragment) map to
the same local path. -/
theorem c10_local_path_ignores_query_witness :
    get_local_path cfgA "http://a.test/p?x=1" =
      get_local_path cfgA "http://a.test/p?x=2#f" :=
  c10_local_path_ignores_query cfgA "http://a.test/p?x=1" "http://a.test/p?x=2#f"
    (by decide) (by decide)

/-! ## C8 — what `start()` actually resets -/

/-- **C8 counterexample**: on a scraper whose counters are nonzero and whose
queue has been drained, the reset at the top of `start` leaves the counters
untouched (`downloaded` stays 4, not 0) and does not admit the seed URL (the
queue stays empty): the claim that `start()` resets the CrawlStats and then
admits the seed at depth 0 fails at this state. -/
theorem c8_counterexample :
    (startPrelude sBad).downloaded = 4
    ∧ (startPrelude sBad).downloaded ≠ 0
    ∧ (startPrelude sBad).queue = []
    ∧ ("http://a.test/", 0) ∉ (startPrelude sBad).queue := by
  refine ⟨rfl, ?_, rfl, ?_⟩
  · decide
  · decide

/-- **C8 amended**: `start()` resets only the VisitedSet (and raises the
running flag); the Frontier contents and the CrawlStats counters pass
through unchanged. The seed is admitted at depth 0, and the counters are
zeroed, by the constructor `__init__`, not by `start()`. -/
theorem c8_start_resets_only_visited (s : CrawlState) (cfg : Config) :
    (startPrelude s).visited = ∅
    ∧ (startPrelude s).running = true
    ∧ (startPrelude s).queue = s.queue
    ∧ (startPrelude s).total = s.total
    ∧ (startPrelude s).downloaded = s.downloaded
    ∧ (startPrelude s).failed = s.failed
    ∧ (initScraper cfg).queue = [(cfg.baseUrl, 0)]
    ∧ (initScraper cfg).total = 0
    ∧ (initScraper cfg).downloaded = 0
    ∧ (initScraper cfg).failed = 0 :=
  ⟨rfl, rfl, rfl, rfl, rfl, rfl, rfl, rfl, rfl, rfl⟩

/-! ## Invariant machinery for the worker loop -/

/-- A predicate preserved by `workerStep` holds along every run. -/
theorem runSteps_invariant (cfg : Config) (web : Web) (resOk : String → Bool)
    {P : CrawlState → Prop} {s : CrawlState} (h0 : P s)
    (hstep : ∀ t, P t → P (workerStep cfg web resOk t)) :
    ∀ n, P (runSteps cfg web resOk s n)
  | 0 => h0
  | n + 1 => hstep _ (runSteps_invariant cfg web resOk h0 hstep n)

/-- A worker iteration never touches the `running` flag. -/
theorem workerStep_running (cfg : Config) (web : Web) (resOk : String → Bool)
    (s : CrawlState) : (workerStep cfg web resOk s).running = s.running := by
  unfold workerStep
  rcases hq : s.queue with _ | ⟨⟨url, depth⟩, rest⟩
  · rfl
  · dsimp only
    split
    · rfl
    · rcases hw : web url with doc | _ | _ | _ <;> rfl

/-- One worker iteration never decreases any of the three counters. -/
theorem workerStep_counters_mono (cfg : Config) (web : Web) (resOk : String → Bool)
    (s : CrawlState) :
    s.total ≤ (workerStep cfg web resOk s).total
    ∧ s.downloaded ≤ (workerStep cfg web resOk s).downloaded
    ∧ s.failed ≤ (workerStep cfg web resOk s).failed := by
  unfold workerStep
  rcases hq : s.queue with _ | ⟨⟨url, depth⟩, rest⟩
  · exact ⟨le_refl _, le_refl _, le_refl _⟩
  · dsimp only
    split
    · exact ⟨le_refl _, le_refl _, le_refl _⟩
    · rcases hw : web url with doc | _ | _ | _ <;> dsimp only <;>
        exact ⟨by omega, by omega, by omega⟩

/-- One worker iteration preserves the stats invariant
`downloaded + failed ≤ total ∧ total = |visited|`. -/
theorem workerStep_stats (cfg : Config) (web : Web) (resOk : String → Bool)
    (s : CrawlState)
    (h : s.downloaded + s.failed ≤ s.total ∧ s.total = s.visited.card) :
    (workerStep cfg web resOk s).downloaded + (workerStep cfg web resOk s).failed
      ≤ (workerStep cfg web resOk s).total
    ∧ (workerStep cfg web resOk s).total = (workerStep cfg web resOk s).visited.card := by
  obtain ⟨h1, h2⟩ := h
  unfold workerStep
  rcases hq : s.queue with _ | ⟨⟨url, depth⟩, rest⟩
  · exact ⟨h1, h2⟩
  · dsimp only
    split
    · exact ⟨h1, h2⟩
    · rename_i hmem
      have hcard : (insert url s.visited).card = s.visited.card + 1 :=
        Finset.card_insert_of_not_mem hmem
      rcases hw : web url with doc | _ | _ | _ <;> dsimp only <;>
        exact ⟨by omega, by rw [hcard]; omega⟩

/-! ## C3 — the CrawlStats invariant -/

/-- **C3**: along any session, at every step `downloaded + failed ≤ total`,
`total` equals the number of distinct URLs ever dequeued and marked visited
(the cardinality of the visited set), and all three counters are
monotonically non-decreasing from each step to the next. -/
theorem c3_stats_invariant (cfg : Config) (web : Web) (resOk : String → Bool)
    (n : Nat) :
    (runSteps cfg web resOk (sessionStart cfg) n).downloaded
        + (runSteps cfg web resOk (sessionStart cfg) n).failed
      ≤ (runSteps cfg web resOk (sessionStart cfg) n).total
    ∧ (runSteps cfg web resOk (sessionStart cfg) n).total
      = (runSteps cfg web resOk (sessionStart cfg) n).visited.card
    ∧ (runSteps cfg web resOk (sessionStart cfg) n).total
      ≤ (runSteps cfg web resOk (sessionStart cfg) (n + 1)).total
    ∧ (runSteps cfg web resOk (sessionStart cfg) n).downloaded
      ≤ (runSteps cfg web resOk (sessionStart cfg) (n + 1)).downloaded
    ∧ (runSteps cfg web resOk (sessionStart cfg) n).failed
      ≤ (runSteps cfg web resOk (sessionStart cfg) (n + 1)).failed := by
  have h0 : (sessionStart cfg).downloaded + (sessionStart cfg).failed
      ≤ (sessionStart cfg).total
      ∧ (sessionStart cfg).total = (sessionStart cfg).visited.card := by
    constructor <;> simp [sessionStart, startPrelude, initScraper]
  have hinv := runSteps_invariant cfg web resOk h0
    (fun t ht => workerStep_stats cfg web resOk t ht) n
  have hmono := workerStep_counters_mono cfg web resOk
    (runSteps cfg web resOk (sessionStart cfg) n)
  exact ⟨hinv.1, hinv.2, hmono.1, hmono.2.1, hmono.2.2⟩

/-! ## C4 — no task beyond the depth limit -/

/-- One worker iteration keeps every task ever admitted, and every pending
task, within the depth bound. -/
theorem workerStep_depth (cfg : Config) (web : Web) (resOk : String → Bool)
    (s : CrawlState)
    (h : (∀ t ∈ s.taskLog, t.2 ≤ cfg.maxDepth) ∧ ∀ t ∈ s.queue, t.2 ≤ cfg.maxDepth) :
    (∀ t ∈ (workerStep cfg web resOk s).taskLog, t.2 ≤ cfg.maxDepth)
    ∧ ∀ t ∈ (workerStep cfg web resOk s).queue, t.2 ≤ cfg.maxDepth := by
  obtain ⟨hlog, hque⟩ := h
  unfold workerStep
  rcases hq : s.queue with _ | ⟨⟨url, depth⟩, rest⟩
  · exact ⟨hlog, hque⟩
  · have hrest : ∀ t ∈ rest, t.2 ≤ cfg.maxDepth :=
      fun t ht => hque t (by rw [hq]; exact List.mem_cons_of_mem _ ht)
    dsimp only
    split
    · exact ⟨hlog, hrest⟩
    · rcases hw : web url with doc | _ | _ | _ <;> dsimp only
      · have hnew : ∀ t ∈ (if depth < cfg.maxDepth then
            (((process_html cfg resOk doc url).links.filter
                (fun l => l ∉ insert url s.visited)).map (fun l => (l, depth + 1)))
            else []), t.2 ≤ cfg.maxDepth := by
          intro t ht
          split at ht
          · rename_i hlt
            obtain ⟨l, _, rfl⟩ := List.mem_map.mp ht
            exact hlt
          · simp at ht
        constructor
        · intro t ht
          rcases List.mem_append.mp ht with h1 | h2
          · exact hlog t h1
          · exact hnew t h2
        · intro t ht
          rcases List.mem_append.mp ht with h1 | h2
          · exact hrest t h1
          · exact hnew t h2
      · exact ⟨hlog, hrest⟩
      · exact ⟨hlog, hrest⟩
      · exact ⟨hlog, hrest⟩

/-- **C4**: no crawl task is ever created with `depth > max_depth`: every
entry ever admitted to the queue respects the bound, and the seed enters at
depth 0. -/
theorem c4_depth_never_exceeds_max (cfg : Config) (web : Web)
    (resOk : String → Bool) (n : Nat) (t : String × Nat)
    (ht : t ∈ (runSteps cfg web resOk (sessionStart cfg) n).taskLog) :
    t.2 ≤ cfg.maxDepth ∧ (sessionStart cfg).taskLog = [(cfg.baseUrl, 0)] := by
  have h0 : (∀ u ∈ (sessionStart cfg).taskLog, u.2 ≤ cfg.maxDepth)
      ∧ ∀ u ∈ (sessionStart cfg).queue, u.2 ≤ cfg.maxDepth := by
    constructor <;>
    · intro u hu
      have he : u = (cfg.baseUrl, 0) := by
        simpa [sessionStart, startPrelude, initScraper] using hu
      rw [he]
      exact Nat.zero_le _
  have hinv := runSteps_invariant cfg web resOk h0
    (fun u hu => workerStep_depth cfg web resOk u hu) n
  exact ⟨hinv.1 t ht, rfl⟩

/-- Witness for C4: after one step of the concrete site, the task
`(http://a.test/p1, 1)` has been admitted and respects `max_depth = 5`. -/
theorem c4_depth_never_exceeds_max_witness :
    (("http://a.test/p1", 1) ∈ (runSteps cfgA webA allOk (sessionStart cfgA) 1).taskLog)
    ∧ 1 ≤ cfgA.maxDepth :=
  ⟨by decide,
    (c4_depth_never_exceeds_max cfgA webA allOk 1 ("http://a.test/p1", 1) (by decide)).1⟩

/-! ## C5 — host confinement when `follow_external` is off -/

/-- With `follow_external` off, `_is_valid_url` only accepts URLs on the
base domain. -/
theorem is_valid_url_same_host (cfg : Config) (url : String)
    (hfe : cfg.followExternal = false) (h : is_valid_url cfg url = true) :
    (urlparse url).netloc = baseDomain cfg := by
  unfold is_valid_url at h
  split at h
  · exact absurd h (by simp)
  · split at h
    · exact absurd h (by simp)
    · rename_i h2
      rw [hfe] at h2
      simpa using h2

/-- Every link `_process_html` returns has passed `_is_valid_url`. -/
theorem mem_links_valid (cfg : Config) (resOk : String → Bool) (doc : List Node)
    (pageUrl l : String) (h : l ∈ (process_html cfg resOk doc pageUrl).links) :
    is_valid_url cfg l = true := by
  have h' : l ∈ extractLinks cfg doc pageUrl := h
  obtain ⟨n, hn, hfn⟩ := List.mem_filterMap.mp h'
  rcases ha : anchorHref n with _ | href
  · simp [ha] at hfn
  · simp only [ha] at hfn
    rcases hb : normalize_url href pageUrl with _ | u
    · simp [hb] at hfn
    · simp only [hb] at hfn
      split at hfn
      · rename_i hv
        cases hfn
        exact hv
      · cases hfn

/-- One worker iteration keeps every admitted and pending task on the base
domain when `follow_external` is off. -/
theorem workerStep_host (cfg : Config) (web : Web) (resOk : String → Bool)
    (s : CrawlState) (hfe : cfg.followExternal = false)
    (h : (∀ t ∈ s.taskLog, (urlparse t.1).netloc = baseDomain cfg)
      ∧ ∀ t ∈ s.queue, (urlparse t.1).netloc = baseDomain cfg) :
    (∀ t ∈ (workerStep cfg web resOk s).taskLog,
        (urlparse t.1).netloc = baseDomain cfg)
    ∧ ∀ t ∈ (workerStep cfg web resOk s).queue,
        (urlparse t.1).netloc = baseDomain cfg := by
  obtain ⟨hlog, hque⟩ := h
  unfold workerStep
  rcases hq : s.queue with _ | ⟨⟨url, depth⟩, rest⟩
  · exact ⟨hlog, hque⟩
  · have hrest : ∀ t ∈ rest, (urlparse t.1).netloc = baseDomain cfg :=
      fun t ht => hque t (by rw [hq]; exact List.mem_cons_of_mem _ ht)
    dsimp only
    split
    · exact ⟨hlog, hrest⟩
    · rcases hw : web url with doc | _ | _ | _ <;> dsimp only
      · have hnew : ∀ t ∈ (if depth < cfg.maxDepth then
            (((process_html cfg resOk doc url).links.filter
                (fun l => l ∉ insert url s.visited)).map (fun l => (l, depth + 1)))
            else []), (urlparse t.1).netloc = baseDomain cfg := by
          intro t ht
          split at ht
          · obtain ⟨l, hl, rfl⟩ := List.mem_map.mp ht
            exact is_valid_url_same_host cfg l hfe
              (mem_links_valid cfg resOk doc url l (List.mem_of_mem_filter hl))
          · simp at ht
        constructor
        · intro t ht
          rcases List.mem_append.mp ht with h1 | h2
          · exact hlog t h1
          · exact hnew t h2
        · intro t ht
          rcases List.mem_append.mp ht with h1 | h2
          · exact hrest t h1
          · exact hnew t h2
      · exact ⟨hlog, hrest⟩
      · exact ⟨hlog, hrest⟩
      · exact ⟨hlog, hrest⟩

/-- **C5**: with `follow_external = False`, every task ever admitted to the
Frontier — the seed included — has the seed URL's host. -/
theorem c5_same_host_only (cfg : Config) (web : Web) (resOk : String → Bool)
    (n : Nat) (t : String × Nat) (hfe : cfg.followExternal = false)
    (ht : t ∈ (runSteps cfg web resOk (sessionStart cfg) n).taskLog) :
    (urlparse t.1).netloc = (urlparse cfg.baseUrl).netloc := by
  have h0 : (∀ u ∈ (sessionStart cfg).taskLog,
        (urlparse u.1).netloc = baseDomain cfg)
      ∧ ∀ u ∈ (sessionStart cfg).queue, (urlparse u.1).netloc = baseDomain cfg := by
    constructor <;>
    · intro u hu
      have he : u = (cfg.baseUrl, 0) := by
        simpa [sessionStart, startPrelude, initScraper] using hu
      rw [he]
      rfl
  have hinv := runSteps_invariant cfg web resOk h0
    (fun u hu => workerStep_host cfg web resOk u hfe hu) n
  exact hinv.1 t ht

/-- Witness for C5: the admitted task `(http://a.test/p1, 1)` of the
concrete crawl shares the seed's host `a.test`. -/
theorem c5_same_host_only_witness :
    cfgA.followExternal = false
    ∧ (("http://a.test/p1", 1) ∈ (runSteps cfgA webA allOk (sessionStart cfgA) 1).taskLog)
    ∧ (urlparse "http://a.test/p1").netloc = (urlparse cfgA.baseUrl).netloc :=
  ⟨rfl, by decide,
    c5_same_host_only cfgA webA allOk 1 ("http://a.test/p1", 1) rfl (by decide)⟩

/-! ## C2 — admission to the Frontier is not deduplicated at enqueue time -/

/-- **C2 counterexample**: on the concrete site, pages `p1` and `p2` both
link to `shared`; because `download_page` only checks membership but does
not insert at enqueue time, `(shared, 2)` is admitted to the queue twice in
one session — the claim that no URL is ever admitted twice fails. -/
theorem c2_counterexample :
    (runSteps cfgA webA allOk (sessionStart cfgA) 3).taskLog.count
        ("http://a.test/shared", 2) = 2
    ∧ ¬ (runSteps cfgA webA allOk (sessionStart cfgA) 3).taskLog.Nodup := by
  constructor
  · decide
  · decide

/-- One worker iteration preserves: the processed log is duplicate-free and
mirrors the visited set. -/
theorem workerStep_processed (cfg : Config) (web : Web) (resOk : String → Bool)
    (s : CrawlState)
    (h : s.processedLog.Nodup ∧ ∀ u, u ∈ s.processedLog ↔ u ∈ s.visited) :
    (workerStep cfg web resOk s).processedLog.Nodup
    ∧ ∀ u, u ∈ (workerStep cfg web resOk s).processedLog ↔
        u ∈ (workerStep cfg web resOk s).visited := by
  obtain ⟨hnd, hiff⟩ := h
  unfold workerStep
  rcases hq : s.queue with _ | ⟨⟨url, depth⟩, rest⟩
  · exact ⟨hnd, hiff⟩
  · dsimp only
    split
    · exact ⟨hnd, hiff⟩
    · rename_i hmem
      have hnotin : url ∉ s.processedLog := fun hc => hmem ((hiff url).mp hc)
      have hnd' : (s.processedLog ++ [url]).Nodup := by
        simp [List.nodup_append, hnd, hnotin]
      have hiff' : ∀ u, u ∈ s.processedLog ++ [url] ↔ u ∈ insert url s.visited := by
        intro u
        simp only [List.mem_append, List.mem_singleton, Finset.mem_insert, hiff u]
        tauto
      rcases hw : web url with doc | _ | _ | _ <;> exact ⟨hnd', hiff'⟩

/-- **C2 amended**: a URL can be enqueued more than once, but the
visited-check-and-insert performed at dequeue time under the lock ensures
each URL is dequeued-and-processed at most once per session: the processed
log never repeats a URL, and it always mirrors the visited set. -/
theorem c2_processed_at_most_once (cfg : Config) (web : Web)
    (resOk : String → Bool) (n : Nat) :
    (runSteps cfg web resOk (sessionStart cfg) n).processedLog.Nodup
    ∧ ∀ u, u ∈ (runSteps cfg web resOk (sessionStart cfg) n).processedLog ↔
        u ∈ (runSteps cfg web resOk (sessionStart cfg) n).visited := by
  have h0 : (sessionStart cfg).processedLog.Nodup
      ∧ ∀ u, u ∈ (sessionStart cfg).processedLog ↔ u ∈ (sessionStart cfg).visited := by
    constructor
    · exact List.nodup_nil
    · intro u
      simp [sessionStart, startPrelude, initScraper]
  exact runSteps_invariant cfg web resOk h0
    (fun t ht => workerStep_processed cfg web resOk t ht) n

/-! ## C1 — the completion check in `start()` never fires -/

/-- **C1 (defect)**: the orchestrator's break condition requires every
worker thread to be dead, but worker threads loop `while self.running` and
`running` stays true throughout the poll loop, so the condition is false at
every step of every session — even on a site whose frontier drains after one
task with nothing left in flight, exhibited here with one worker. `start()`
therefore never detects completion; there is no outstanding-task counter and
no consistent snapshot. -/
theorem c1_completion_check_never_true (n : Nat) :
    completionCheck (runSteps cfgA webB allOk (sessionStart cfgA) n) 1 = false
    ∧ (runSteps cfgA webB allOk (sessionStart cfgA) 1).queue = [] := by
  have hrun : (runSteps cfgA webB allOk (sessionStart cfgA) n).running = true := by
    induction n with
    | zero => rfl
    | succ m ih => rw [runSteps, workerStep_running]; exact ih
  constructor
  · simp [completionCheck, threadsNotAlive, workerThreadAlive, hrun,
      List.replicate]
  · decide

/-! ## C9 — extra file types are downloaded but anchors are not rewritten -/

/-- An image node carries no anchor href. -/
theorem anchorHref_img (s : String) : anchorHref (Node.img s) = none := rfl

/-- A stylesheet node carries no anchor href. -/
theorem anchorHref_css (s : String) : anchorHref (Node.css s) = none := rfl

/-- A script node carries no anchor href. -/
theorem anchorHref_script (s : String) : anchorHref (Node.script s) = none := rfl

/-- The resource-rewriting phase never changes what an element's anchor href
is: anchors pass through verbatim and the other element kinds stay
non-anchors. -/
theorem anchorHref_rewriteNode (cfg : Config) (resOk : String → Bool)
    (pageUrl : String) (n : Node) :
    anchorHref (rewriteNode cfg resOk pageUrl n).1 = anchorHref n := by
  cases n with
  | anchor href => rfl
  | img src =>
      rw [anchorHref_img]
      simp only [rewriteNode]
      split
      · rcases h : normalize_url src pageUrl with _ | u <;> simp only [h] <;>
          first
          | split <;> exact anchorHref_img _
          | exact anchorHref_img src
      · exact anchorHref_img src
  | css href =>
      rw [anchorHref_css]
      simp only [rewriteNode]
      split
      · rcases h : normalize_url href pageUrl with _ | u <;> simp only [h] <;>
          first
          | split <;> exact anchorHref_css _
          | exact anchorHref_css href
      · exact anchorHref_css href
  | script src =>
      rw [anchorHref_script]
      simp only [rewriteNode]
      split
      · rcases h : normalize_url src pageUrl with _ | u <;> simp only [h] <;>
          first
          | split <;> exact anchorHref_script _
          | exact anchorHref_script src
      · exact anchorHref_script src

/-- **C9**: for every anchor on a processed page whose normalized target
matches the extra file types (case-insensitively), `_process_html` issues a
download of that resource to its mapped local path, while the anchors of the
saved document are exactly the anchors of the input document — the href is
never rewritten. -/
theorem c9_extra_download_anchor_unchanged (cfg : Config) (resOk : String → Bool)
    (doc : List Node) (pageUrl href u : String)
    (hmem : Node.anchor href ∈ doc)
    (hnorm : normalize_url href pageUrl = some u)
    (hdl : should_download_file cfg u = true) :
    (u, get_local_path cfg u) ∈ (process_html cfg resOk doc pageUrl).downloads
    ∧ (process_html cfg resOk doc pageUrl).doc.filterMap anchorHref
      = doc.filterMap anchorHref := by
  constructor
  · have hx : (u, get_local_path cfg u) ∈ extraFileDownloads cfg doc pageUrl :=
      List.mem_filterMap.mpr
        ⟨Node.anchor href, hmem, by simp [anchorHref, hnorm, hdl]⟩
    exact List.mem_append.mpr (Or.inr hx)
  · show ((doc.map (rewriteNode cfg resOk pageUrl)).map Prod.fst).filterMap anchorHref
        = doc.filterMap anchorHref
    rw [List.map_map, List.filterMap_map]
    congr 1
    funext n
    simp [Function.comp, anchorHref_rewriteNode cfg resOk pageUrl n]

/-- Witness for C9: with `.pdf` configured, the anchor `/doc.PDF` on the
seed page triggers a download to its mapped path (the extension match is
case-insensitive). -/
theorem c9_extra_download_anchor_unchanged_witness :
    normalize_url "/doc.PDF" "http://a.test/" = some "http://a.test/doc.PDF"
    ∧ should_download_file cfgPdf "http://a.test/doc.PDF" = true
    ∧ ("http://a.test/doc.PDF", get_local_path cfgPdf "http://a.test/doc.PDF")
        ∈ (process_html cfgPdf allOk [Node.anchor "/doc.PDF"] "http://a.test/").downloads :=
  ⟨by decide, by decide,
    (c9_extra_download_anchor_unchanged cfgPdf allOk [Node.anchor "/doc.PDF"]
      "http://a.test/" "/doc.PDF" "http://a.test/doc.PDF"
      (List.mem_singleton.mpr rfl) (by decide) (by decide)).1⟩

end Scrap
